import Mathlib

/-!
Fredsistance watchface: time and date text refresh.

A shallow embedding of `update_time` and `tick_handler` from `src/main.c`,
together with the parts of the C library and of the watch SDK they call:

* `strftime` follows ISO C (7.23.3.5) for the conversions the program uses
  (`%H`, `%M`, `%I`, `%p`, `%a`, `%D`), including the `maxsize` contract:
  when the expansion and its terminator do not fit in `maxsize`, the call
  returns 0 and the array is indeterminate;
* the two `static char` arrays are lists of characters of fixed capacity,
  a text being read from them as a C string (up to the first NUL);
* `text_layer_set_text` stores the pointer it is given, not a copy.

C strings are `List Char`; `struct tm` members are `Int`.
-/

namespace Fredsistance

/-! ## C strings and arrays of `char` -/

/-- The terminator of a C string. -/
def NUL : Char := Char.ofNat 0

/-- The C string stored at the start of an array: the characters before the first NUL. -/
def cstr (buf : List Char) : List Char :=
  buf.takeWhile (fun c => c != NUL)

/-- The value of `sizeof("...")` for a string literal: its characters and the terminator. -/
def sizeofLit (lit : String) : Nat :=
  lit.length + 1

/-- The initial contents of `static char a[] = "..."`: the literal and its terminator. -/
def arrayOfLit (lit : String) : List Char :=
  lit.toList ++ [NUL]

/-! ## `struct tm` and the locale -/

/-- The broken-down time of `<time.h>`. `tm_mon` counts from 0, `tm_year` from 1900,
`tm_wday` from Sunday. -/
structure Tm where
  tm_sec : Int
  tm_min : Int
  tm_hour : Int
  tm_mday : Int
  tm_mon : Int
  tm_year : Int
  tm_wday : Int
  tm_yday : Int
  tm_isdst : Int
  deriving DecidableEq, Repr

/-- The `LC_TIME` data `strftime` reads: abbreviated weekday names (indexed from Sunday)
and the AM/PM markers. -/
structure Locale where
  abday : Nat → List Char
  am : List Char
  pm : List Char

/-- The "C" locale, in force at program start; the program never calls `setlocale`. -/
def cLocale : Locale where
  abday := fun w =>
    (["Sun", "Mon", "Tue", "Wed", "Thu", "Fri", "Sat"].map String.toList).getD w ['?']
  am := "AM".toList
  pm := "PM".toList

/-! ## `strftime` -/

/-- A decimal number printed as by `%.2d`: at least two digits, zero-padded. -/
def dec2 (n : Int) : List Char :=
  let ds := Nat.toDigits 10 n.natAbs
  let padded := List.replicate (2 - ds.length) '0' ++ ds
  if n < 0 then '-' :: padded else padded

/-- The replacement text of one conversion specifier; `none` for a specifier the
program does not use. -/
def conv (loc : Locale) (tm : Tm) : Char → Option (List Char)
  | 'H' => some (dec2 tm.tm_hour)
  | 'M' => some (dec2 tm.tm_min)
  | 'I' => some (dec2 (if tm.tm_hour % 12 = 0 then 12 else tm.tm_hour % 12))
  | 'p' => some (if tm.tm_hour < 12 then loc.am else loc.pm)
  | 'a' => some (if 0 ≤ tm.tm_wday ∧ tm.tm_wday < 7 then loc.abday tm.tm_wday.toNat else ['?'])
  | 'm' => some (dec2 (tm.tm_mon + 1))
  | 'd' => some (dec2 tm.tm_mday)
  | 'y' => some (dec2 ((tm.tm_year + 1900).natAbs % 100))
  | 'D' => some (dec2 (tm.tm_mon + 1) ++ '/' :: dec2 tm.tm_mday
                  ++ '/' :: dec2 ((tm.tm_year + 1900).natAbs % 100))
  | '%' => some ['%']
  | _ => none

/-- The expansion of a format string: conversion specifiers are replaced, every other
character is copied. -/
def expand (loc : Locale) (tm : Tm) : List Char → Option (List Char)
  | [] => some []
  | '%' :: c :: rest =>
    match conv loc tm c, expand loc tm rest with
    | some piece, some tail => some (piece ++ tail)
    | _, _ => none
  | c :: rest =>
    if c = '%' then none
    else match expand loc tm rest with
      | some tail => some (c :: tail)
      | none => none

/-- What can go wrong in a call of `strftime`. -/
inductive Fault where
  /-- The expansion and its terminator exceed `maxsize`: 0 is returned and the
  contents of the array are indeterminate. -/
  | indeterminate
  /-- The characters written do not fit in the array. -/
  | outOfBounds
  /-- The format holds a conversion outside the modelled set. -/
  | badConversion
  deriving DecidableEq, Repr

/-- The call `strftime(s, maxsize, format, timeptr)`: on success the array holds the
expansion, a NUL, and its old contents beyond that; the value returned is the number
of characters written, the NUL not counted. -/
def strftime (loc : Locale) (s : List Char) (maxsize : Nat) (format : String) (tm : Tm) :
    Except Fault (List Char × Nat) :=
  match expand loc tm format.toList with
  | none => .error .badConversion
  | some out =>
    if maxsize < out.length + 1 then .error .indeterminate
    else if s.length < out.length + 1 then .error .outOfBounds
    else .ok (out ++ NUL :: s.drop (out.length + 1), out.length)

/-! ## Application state and host -/

/-- The two function-local `static char` arrays of `update_time`. -/
inductive BufRef where
  | tbuffer
  | dbuffer
  deriving DecidableEq, Repr

/-- The two text layers, `s_time_layer` and `s_date_layer`. -/
inductive LayerId where
  | time
  | date
  deriving DecidableEq, Repr

/-- One call of `strftime` as the program made it: the destination array and its size
when the call was made, the `maxsize` and the format passed, and the value returned. -/
structure StrftimeCall where
  s : BufRef
  capacity : Nat
  maxsize : Nat
  format : String
  returned : Nat
  deriving DecidableEq, Repr

/-- The part of the program state `update_time` reads and writes: the two static
arrays, the text pointer of each layer (null until first set), the calls of
`text_layer_set_text` made so far, and the calls of `strftime` made so far. -/
structure AppState where
  tbuffer : List Char
  dbuffer : List Char
  s_time_layer : Option BufRef
  s_date_layer : Option BufRef
  calls : List (LayerId × BufRef)
  strftime_calls : List StrftimeCall
  deriving DecidableEq, Repr

/-- What the host answers during one call of `update_time`. -/
structure Host where
  /-- The value of `*localtime(&temp)` for `temp = time(NULL)`. -/
  now : Tm
  /-- The value of `clock_is_24h_style()`, as the integer compared with `true`. -/
  clock_is_24h_style : Int
  /-- The locale `strftime` formats in. -/
  locale : Locale

/-- The state before the first run: the arrays hold their initialisers and no layer
has a text yet. -/
def initialState : AppState where
  tbuffer := arrayOfLit "00:00 XX"
  dbuffer := arrayOfLit "XXX, XX/XX/XX"
  s_time_layer := none
  s_date_layer := none
  calls := []
  strftime_calls := []

/-- The arrays have their declared sizes. -/
def AppState.wf (s : AppState) : Prop :=
  s.tbuffer.length = sizeofLit "00:00 XX" ∧ s.dbuffer.length = sizeofLit "XXX, XX/XX/XX"

instance (s : AppState) : Decidable s.wf := by
  unfold AppState.wf; infer_instance

/-- The array a pointer refers to. -/
def AppState.deref (s : AppState) : BufRef → List Char
  | .tbuffer => s.tbuffer
  | .dbuffer => s.dbuffer

/-- The state with one of the arrays overwritten. -/
def AppState.store (s : AppState) (p : BufRef) (buf : List Char) : AppState :=
  match p with
  | .tbuffer => { s with tbuffer := buf }
  | .dbuffer => { s with dbuffer := buf }

/-- The program's call `strftime(array, maxsize, format, timeptr)` on one of its static
arrays: the array takes the contents `strftime` leaves, and the call is recorded with
the size of the array, the `maxsize` and format passed, and the value returned. -/
def call_strftime (loc : Locale) (dest : BufRef) (maxsize : Nat) (format : String) (tm : Tm)
    (s : AppState) : Except Fault AppState := do
  let (buf, n) ← strftime loc (s.deref dest) maxsize format tm
  let s1 := s.store dest buf
  pure { s1 with strftime_calls :=
    s.strftime_calls ++ [⟨dest, (s.deref dest).length, maxsize, format, n⟩] }

/-- The SDK call `text_layer_set_text(layer, text)`: the layer keeps the pointer. -/
def text_layer_set_text (layer : LayerId) (text : BufRef) (s : AppState) : AppState :=
  match layer with
  | .time => { s with s_time_layer := some text, calls := s.calls ++ [(layer, text)] }
  | .date => { s with s_date_layer := some text, calls := s.calls ++ [(layer, text)] }

/-- The text a layer shows: the C string its pointer refers to, if it has one. -/
def AppState.layerText (s : AppState) : LayerId → Option (List Char)
  | .time => s.s_time_layer.map (fun p => cstr (s.deref p))
  | .date => s.s_date_layer.map (fun p => cstr (s.deref p))

/-! ## The program -/

/-- The function `update_time` of `main.c`. A fault in a `strftime` call ends the run:
from there on the C program's behaviour is not determined by the source. -/
def update_time (host : Host) (s : AppState) : Except Fault AppState := do
  let tick_time := host.now
  let s ←
    if host.clock_is_24h_style = 1 then
      call_strftime host.locale .tbuffer (sizeofLit "00:00") "%H:%M" tick_time s
    else
      call_strftime host.locale .tbuffer (sizeofLit "00:00 XX") "%I:%M %p" tick_time s
  let s := text_layer_set_text .time .tbuffer s
  let s ← call_strftime host.locale .dbuffer (sizeofLit "XXX, XX/XX/XX") "%a, %D" tick_time s
  pure (text_layer_set_text .date .dbuffer s)

/-- The function `tick_handler` of `main.c`: both arguments are ignored. -/
def tick_handler (_tick_time : Option Tm) (_units_changed : Nat) (host : Host) (s : AppState) :
    Except Fault AppState :=
  update_time host s


/-- The members of a broken-down time the program's formats read are in range:
hour 0..23, minute 0..59, weekday 0..6, month 0..11 (January is 0), day 1..31. -/
def Tm.valid (tm : Tm) : Prop :=
  (0 ≤ tm.tm_hour ∧ tm.tm_hour ≤ 23) ∧ (0 ≤ tm.tm_min ∧ tm.tm_min ≤ 59) ∧
  (0 ≤ tm.tm_wday ∧ tm.tm_wday ≤ 6) ∧ (0 ≤ tm.tm_mon ∧ tm.tm_mon ≤ 11) ∧
  (1 ≤ tm.tm_mday ∧ tm.tm_mday ≤ 31)

instance (tm : Tm) : Decidable tm.valid := by
  unfold Tm.valid; infer_instance

/-! ## The texts as the specification words them -/

namespace Spec

/-- A number below 100 as two decimal digits, the tens digit first. -/
def twoDigit (n : Nat) : List Char :=
  [Char.ofNat (48 + n / 10), Char.ofNat (48 + n % 10)]

/-- The hour of the 12-hour clock: 12 when `h mod 12 = 0`, else `h mod 12`. -/
def hour12 (h : Nat) : Nat :=
  if h % 12 = 0 then 12 else h % 12

/-- The 12-hour time text: `HH:MM AM` or `HH:MM PM`. -/
def time12 (h m : Nat) : List Char :=
  twoDigit (hour12 h) ++ ":".toList ++ twoDigit m ++ " ".toList
    ++ (if h < 12 then "AM".toList else "PM".toList)

/-- The 24-hour time text: `HH:MM`. -/
def time24 (h m : Nat) : List Char :=
  twoDigit h ++ ":".toList ++ twoDigit m

/-- The date text: weekday name, comma, space, `MM/DD/YY`. -/
def date (wdayName : List Char) (month day yearOfCentury : Nat) : List Char :=
  wdayName ++ ", ".toList ++ twoDigit month ++ "/".toList ++ twoDigit day ++ "/".toList
    ++ twoDigit yearOfCentury

/-- Regular expressions without iteration, enough for the three anchored patterns. -/
inductive Rx where
  | eps
  | cls (p : Char → Bool)
  | seq (a b : Rx)
  | alt (a b : Rx)

/-- Whether the whole of `s` matches `r` (the pattern anchored at both ends). -/
def Rx.matches : Rx → List Char → Bool
  | .eps, s => s.isEmpty
  | .cls p, s =>
    match s with
    | [c] => p c
    | _ => false
  | .seq a b, s =>
    (List.range (s.length + 1)).any (fun i => a.matches (s.take i) && b.matches (s.drop i))
  | .alt a b, s => a.matches s || b.matches s

/-- The class `\d`. -/
def Rx.digit : Rx := .cls Char.isDigit

/-- The class `[A-Za-z]`. -/
def Rx.alpha : Rx := .cls Char.isAlpha

/-- The class `[lo-hi]`. -/
def Rx.range (lo hi : Char) : Rx := .cls (fun c => decide (lo ≤ c) && decide (c ≤ hi))

/-- A single literal character. -/
def Rx.chr (c : Char) : Rx := .cls (fun d => d == c)

/-- A literal string. -/
def Rx.lit (s : String) : Rx := s.toList.foldr (fun c r => .seq (.chr c) r) .eps

/-- The pattern `r{n}`. -/
def Rx.rep : Nat → Rx → Rx
  | 0, _ => .eps
  | n + 1, r => .seq r (Rx.rep n r)

/-- The time text of `format(timestamp, style)`: 24-hour when the style says so,
12-hour otherwise. -/
def timeString (twentyFourHour : Bool) (tm : Tm) : List Char :=
  if twentyFourHour then time24 tm.tm_hour.toNat tm.tm_min.toNat
  else time12 tm.tm_hour.toNat tm.tm_min.toNat

/-- The date text of `format(timestamp, style)`: the weekday name of the "C" locale, the
month counted from 1, the day, and the last two digits of the year. -/
def dateString (tm : Tm) : List Char :=
  date (cLocale.abday tm.tm_wday.toNat) (tm.tm_mon + 1).toNat tm.tm_mday.toNat
    ((tm.tm_year + 1900).natAbs % 100)

/-- The pattern `^([01]\d|2[0-3]):[0-5]\d$`. -/
def rxTime24 : Rx :=
  .seq (.alt (.seq (.range '0' '1') .digit) (.seq (.chr '2') (.range '0' '3')))
    (.seq (.chr ':') (.seq (.range '0' '5') .digit))

/-- The pattern `^(0[1-9]|1[0-2]):[0-5]\d (AM|PM)$`. -/
def rxTime12 : Rx :=
  .seq (.alt (.seq (.chr '0') (.range '1' '9')) (.seq (.chr '1') (.range '0' '2')))
    (.seq (.chr ':') (.seq (.seq (.range '0' '5') .digit)
      (.seq (.chr ' ') (.alt (.lit "AM") (.lit "PM")))))

/-- The pattern `^[A-Za-z]{3}, \d{2}/\d{2}/\d{2}$`. -/
def rxDate : Rx :=
  .seq (.rep 3 .alpha) (.seq (.lit ", ") (.seq (.rep 2 .digit) (.seq (.chr '/')
    (.seq (.rep 2 .digit) (.seq (.chr '/') (.rep 2 .digit))))))

end Spec


/-! ## The state after a run, and sample inputs -/

/-- The state `update_time` leaves, for a given value of the style flag, when its two
`strftime` calls write `tOut` and `dOut`. -/
def ranState (s : AppState) (style : Int) (tOut dOut : List Char) : AppState where
  tbuffer := tOut ++ NUL :: s.tbuffer.drop (tOut.length + 1)
  dbuffer := dOut ++ NUL :: s.dbuffer.drop (dOut.length + 1)
  s_time_layer := some .tbuffer
  s_date_layer := some .dbuffer
  calls := s.calls ++ [(.time, .tbuffer), (.date, .dbuffer)]
  strftime_calls := s.strftime_calls ++
    [⟨.tbuffer, s.tbuffer.length,
        if style = 1 then sizeofLit "00:00" else sizeofLit "00:00 XX",
        if style = 1 then "%H:%M" else "%I:%M %p", tOut.length⟩,
      ⟨.dbuffer, s.dbuffer.length, sizeofLit "XXX, XX/XX/XX", "%a, %D", dOut.length⟩]


/-- Wednesday 1 January 2025, 00:00:00. -/
def midnightWed : Tm := ⟨0, 0, 0, 1, 0, 125, 3, 0, 0⟩

/-- Monday 6 January 2025, 13:05:00. -/
def afternoon : Tm := ⟨0, 5, 13, 6, 0, 125, 1, 5, 0⟩

/-- Tuesday 31 December 2024, 23:59:00. -/
def newYearsEve : Tm := ⟨0, 59, 23, 31, 11, 124, 2, 365, 0⟩

/-- A state in which an earlier 12-hour run has left `11:59 PM` and a date in the arrays. -/
def afterTwelveHour : AppState where
  tbuffer := "11:59 PM".toList ++ [NUL]
  dbuffer := "Tue, 12/31/24".toList ++ [NUL]
  s_time_layer := some .tbuffer
  s_date_layer := some .dbuffer
  calls := [(.time, .tbuffer), (.date, .dbuffer)]
  strftime_calls := [⟨.tbuffer, 9, 9, "%I:%M %p", 8⟩, ⟨.dbuffer, 14, 14, "%a, %D", 13⟩]

/-! ## Lemmas on the library model -/

theorem dec2_natCast (n : Nat) (h : n < 100) : dec2 (n : Int) = Spec.twoDigit n := by
  interval_cases n <;> rfl

theorem dec2_of_bounds (z : Int) (h0 : 0 ≤ z) (h1 : z < 100) :
    dec2 z = Spec.twoDigit z.toNat := by
  obtain ⟨n, rfl⟩ := Int.eq_ofNat_of_zero_le h0
  have hn : n < 100 := by omega
  simpa using dec2_natCast n hn

theorem expand_time24 (loc : Locale) (tm : Tm) :
    expand loc tm "%H:%M".toList = some (dec2 tm.tm_hour ++ ':' :: dec2 tm.tm_min) := by
  simp [expand, conv]

theorem expand_time12 (loc : Locale) (tm : Tm) :
    expand loc tm "%I:%M %p".toList
      = some (dec2 (if tm.tm_hour % 12 = 0 then 12 else tm.tm_hour % 12) ++ ':' :: dec2 tm.tm_min
          ++ ' ' :: (if tm.tm_hour < 12 then loc.am else loc.pm)) := by
  simp [expand, conv]

theorem expand_date (loc : Locale) (tm : Tm) :
    expand loc tm "%a, %D".toList
      = some ((if 0 ≤ tm.tm_wday ∧ tm.tm_wday < 7 then loc.abday tm.tm_wday.toNat else ['?'])
          ++ ',' :: ' ' :: (dec2 (tm.tm_mon + 1) ++ '/' :: dec2 tm.tm_mday
          ++ '/' :: dec2 ((tm.tm_year + 1900).natAbs % 100))) := by
  simp [expand, conv]


theorem strftime_ok (loc : Locale) (s : List Char) (maxsize : Nat) (format : String) (tm : Tm)
    (out : List Char) (he : expand loc tm format.toList = some out)
    (h1 : out.length + 1 ≤ maxsize) (h2 : out.length + 1 ≤ s.length) :
    strftime loc s maxsize format tm = .ok (out ++ NUL :: s.drop (out.length + 1), out.length) := by
  unfold strftime
  rw [he]
  simp only [Nat.not_lt.mpr h1, Nat.not_lt.mpr h2, if_false]

theorem cstr_append_nul (out rest : List Char) (h : NUL ∉ out) :
    cstr (out ++ NUL :: rest) = out := by
  induction out with
  | nil => simp [cstr]
  | cons c cs ih =>
    have hc : c ≠ NUL := fun e => h (e ▸ List.mem_cons_self _ _)
    have hcs : NUL ∉ cs := fun m => h (List.mem_cons_of_mem _ m)
    have := ih hcs
    simp only [cstr] at this ⊢
    simp [List.takeWhile_cons, hc, this]

theorem call_strftime_ok (loc : Locale) (dest : BufRef) (maxsize : Nat) (format : String)
    (tm : Tm) (s : AppState) (out : List Char) (he : expand loc tm format.toList = some out)
    (h1 : out.length + 1 ≤ maxsize) (h2 : out.length + 1 ≤ (s.deref dest).length) :
    call_strftime loc dest maxsize format tm s
      = .ok { s.store dest (out ++ NUL :: (s.deref dest).drop (out.length + 1)) with
          strftime_calls := s.strftime_calls ++
            [⟨dest, (s.deref dest).length, maxsize, format, out.length⟩] } := by
  unfold call_strftime
  rw [strftime_ok _ _ _ _ _ out he h1 h2]
  rfl

theorem update_time_run (host : Host) (s : AppState) (tOut dOut : List Char)
    (ht : expand host.locale host.now
      (if host.clock_is_24h_style = 1 then "%H:%M" else "%I:%M %p").toList = some tOut)
    (htl : tOut.length + 1 ≤
      (if host.clock_is_24h_style = 1 then sizeofLit "00:00" else sizeofLit "00:00 XX"))
    (hts : tOut.length + 1 ≤ s.tbuffer.length)
    (hd : expand host.locale host.now "%a, %D".toList = some dOut)
    (hdl : dOut.length + 1 ≤ sizeofLit "XXX, XX/XX/XX")
    (hds : dOut.length + 1 ≤ s.dbuffer.length) :
    update_time host s = .ok (ranState s host.clock_is_24h_style tOut dOut) := by
  unfold update_time
  by_cases h24 : host.clock_is_24h_style = 1
  · simp only [h24, if_true] at ht htl ⊢
    rw [call_strftime_ok _ .tbuffer _ _ _ s tOut ht htl hts]
    simp only [bind, Except.bind, text_layer_set_text]
    rw [call_strftime_ok _ .dbuffer _ _ _ _ dOut hd hdl ?_]
    · simp [ranState, pure, Except.pure, AppState.store, AppState.deref]
    · exact hds
  · simp only [h24, if_false] at ht htl ⊢
    rw [call_strftime_ok _ .tbuffer _ _ _ s tOut ht htl hts]
    simp only [bind, Except.bind, text_layer_set_text]
    rw [call_strftime_ok _ .dbuffer _ _ _ _ dOut hd hdl ?_]
    · simp [ranState, pure, Except.pure, AppState.store, AppState.deref, h24]
    · exact hds

theorem ranState_layerText (s : AppState) (style : Int) (tOut dOut : List Char)
    (ht : NUL ∉ tOut) (hd : NUL ∉ dOut) :
    (ranState s style tOut dOut).layerText .time = some tOut ∧
    (ranState s style tOut dOut).layerText .date = some dOut := by
  simp [ranState, AppState.layerText, AppState.deref, cstr_append_nul _ _ ht,
    cstr_append_nul _ _ hd]

theorem ranState_wf (s : AppState) (style : Int) (tOut dOut : List Char) (h : s.wf)
    (ht : tOut.length + 1 ≤ s.tbuffer.length) (hd : dOut.length + 1 ≤ s.dbuffer.length) :
    (ranState s style tOut dOut).wf := by
  unfold AppState.wf at h ⊢
  simp only [ranState, List.length_append, List.length_cons, List.length_drop]
  omega


/-! ## The expansions at a valid time -/

theorem time24_out (tm : Tm) (hv : tm.valid) :
    dec2 tm.tm_hour ++ ':' :: dec2 tm.tm_min
      = Spec.time24 tm.tm_hour.toNat tm.tm_min.toNat := by
  obtain ⟨⟨hh0, hh1⟩, ⟨hm0, hm1⟩, -⟩ := hv
  rw [dec2_of_bounds _ hh0 (by omega), dec2_of_bounds _ hm0 (by omega)]
  rfl

theorem hour12_out (z : Int) (h0 : 0 ≤ z) (h1 : z ≤ 23) :
    dec2 (if z % 12 = 0 then 12 else z % 12) = Spec.twoDigit (Spec.hour12 z.toNat) := by
  obtain ⟨n, rfl⟩ := Int.eq_ofNat_of_zero_le h0
  have hn : n < 24 := by omega
  simp only [Int.toNat_ofNat]
  interval_cases n <;> rfl

theorem time12_out (loc : Locale) (tm : Tm) (hv : tm.valid) :
    dec2 (if tm.tm_hour % 12 = 0 then 12 else tm.tm_hour % 12) ++ ':' :: dec2 tm.tm_min
        ++ ' ' :: (if tm.tm_hour < 12 then loc.am else loc.pm)
      = Spec.twoDigit (Spec.hour12 tm.tm_hour.toNat) ++ ":".toList
          ++ Spec.twoDigit tm.tm_min.toNat ++ " ".toList
          ++ (if tm.tm_hour.toNat < 12 then loc.am else loc.pm) := by
  obtain ⟨⟨hh0, hh1⟩, ⟨hm0, hm1⟩, -⟩ := hv
  rw [hour12_out _ hh0 hh1, dec2_of_bounds _ hm0 (by omega)]
  have e : (tm.tm_hour.toNat < 12) = (tm.tm_hour < 12) := by
    apply propext; omega
  simp [e]

theorem time12_out_c (tm : Tm) (hv : tm.valid) :
    dec2 (if tm.tm_hour % 12 = 0 then 12 else tm.tm_hour % 12) ++ ':' :: dec2 tm.tm_min
        ++ ' ' :: (if tm.tm_hour < 12 then cLocale.am else cLocale.pm)
      = Spec.time12 tm.tm_hour.toNat tm.tm_min.toNat := by
  rw [time12_out cLocale tm hv]
  rfl

theorem date_out (loc : Locale) (tm : Tm) (hv : tm.valid) :
    (if 0 ≤ tm.tm_wday ∧ tm.tm_wday < 7 then loc.abday tm.tm_wday.toNat else ['?'])
        ++ ',' :: ' ' :: (dec2 (tm.tm_mon + 1) ++ '/' :: dec2 tm.tm_mday
        ++ '/' :: dec2 ((tm.tm_year + 1900).natAbs % 100))
      = Spec.date (loc.abday tm.tm_wday.toNat) (tm.tm_mon + 1).toNat tm.tm_mday.toNat
          ((tm.tm_year + 1900).natAbs % 100) := by
  obtain ⟨-, -, ⟨hw0, hw1⟩, ⟨ho0, ho1⟩, ⟨hd0, hd1⟩⟩ := hv
  have hw : 0 ≤ tm.tm_wday ∧ tm.tm_wday < 7 := ⟨hw0, by omega⟩
  have hy : ((tm.tm_year + 1900).natAbs % 100) < 100 := Nat.mod_lt _ (by decide)
  rw [if_pos hw, dec2_of_bounds _ (by omega) (by omega), dec2_of_bounds _ (by omega) (by omega)]
  have := dec2_natCast _ hy
  rw [Int.natCast_mod] at this
  simp only [Nat.cast_ofNat] at this
  rw [this]
  simp [Spec.date]


/-! ## No NUL inside the texts, and their lengths -/

theorem digit_ne_nul (d : Nat) (h : d < 10) : NUL ≠ Char.ofNat (48 + d) := by
  interval_cases d <;> decide

theorem nul_not_mem_twoDigit (n : Nat) (h : n < 100) : NUL ∉ Spec.twoDigit n := by
  have h1 := digit_ne_nul (n / 10) (by omega)
  have h2 := digit_ne_nul (n % 10) (by omega)
  simp [Spec.twoDigit, h1, h2]

theorem hour12_lt (h : Nat) : Spec.hour12 h < 100 := by
  unfold Spec.hour12
  split <;> omega

theorem nul_not_mem_time24 (h m : Nat) (hh : h < 24) (hm : m < 60) :
    NUL ∉ Spec.time24 h m := by
  have h1 := nul_not_mem_twoDigit h (by omega)
  have h2 := nul_not_mem_twoDigit m (by omega)
  have h3 : NUL ≠ ':' := by decide
  simp [Spec.time24, h1, h2, h3]

theorem nul_not_mem_time12 (h m : Nat) (hm : m < 60) : NUL ∉ Spec.time12 h m := by
  have h1 := nul_not_mem_twoDigit (Spec.hour12 h) (hour12_lt h)
  have h2 := nul_not_mem_twoDigit m (by omega)
  have h3 : NUL ≠ ':' := by decide
  have h4 : NUL ≠ ' ' := by decide
  have h5 : NUL ≠ 'A' := by decide
  have h6 : NUL ≠ 'P' := by decide
  have h7 : NUL ≠ 'M' := by decide
  unfold Spec.time12
  split <;> simp [h1, h2, h3, h4, h5, h6, h7]

theorem nul_not_mem_date (name : List Char) (mo d y : Nat) (hn : NUL ∉ name) (hmo : mo < 100)
    (hd : d < 100) (hy : y < 100) : NUL ∉ Spec.date name mo d y := by
  have h1 := nul_not_mem_twoDigit mo hmo
  have h2 := nul_not_mem_twoDigit d hd
  have h3 := nul_not_mem_twoDigit y hy
  have h4 : NUL ≠ ',' := by decide
  have h5 : NUL ≠ ' ' := by decide
  have h6 : NUL ≠ '/' := by decide
  simp [Spec.date, hn, h1, h2, h3, h4, h5, h6]

theorem cLocale_abday (w : Nat) (h : w < 7) :
    (cLocale.abday w).length = 3 ∧ NUL ∉ cLocale.abday w ∧
      (cLocale.abday w).all Char.isAlpha = true := by
  interval_cases w <;> decide

theorem time24_length (h m : Nat) : (Spec.time24 h m).length = 5 := rfl

theorem time12_length (h m : Nat) : (Spec.time12 h m).length = 8 := by
  unfold Spec.time12
  split <;> rfl

theorem date_length (name : List Char) (mo d y : Nat) :
    (Spec.date name mo d y).length = name.length + 10 := by
  simp [Spec.date, Spec.twoDigit]

/-! ## Matching -/

namespace Spec

theorem Rx.matches_seq (a b : Rx) (s t : List Char) (ha : a.matches s = true)
    (hb : b.matches t = true) : (Rx.seq a b).matches (s ++ t) = true := by
  simp only [Rx.matches, List.any_eq_true, List.mem_range, Bool.and_eq_true]
  refine ⟨s.length, ?_, ?_, ?_⟩
  · simp only [List.length_append]
    omega
  · simpa using ha
  · simpa using hb

theorem Rx.matches_chr (c : Char) : (Rx.chr c).matches [c] = true := by
  simp [Rx.chr, Rx.matches]

theorem Rx.matches_chr_cons (c : Char) (b : Rx) (t : List Char) (hb : b.matches t = true) :
    (Rx.seq (.chr c) b).matches (c :: t) = true :=
  Rx.matches_seq (.chr c) b [c] t (Rx.matches_chr c) hb

theorem isDigit_digit (d : Nat) (h : d < 10) : (Char.ofNat (48 + d)).isDigit = true := by
  interval_cases d <;> decide

theorem matches_twoDigit (n : Nat) (h : n < 100) :
    (Rx.rep 2 .digit).matches (twoDigit n) = true := by
  have h1 := isDigit_digit (n / 10) (by omega)
  have h2 := isDigit_digit (n % 10) (by omega)
  have e : twoDigit n = [Char.ofNat (48 + n / 10)] ++ ([Char.ofNat (48 + n % 10)] ++ []) := rfl
  rw [e]
  refine Rx.matches_seq _ _ _ _ ?_ (Rx.matches_seq _ _ _ _ ?_ ?_)
  · simpa [Rx.digit, Rx.matches] using h1
  · simpa [Rx.digit, Rx.matches] using h2
  · rfl

theorem matches_minute (m : Nat) (h : m < 60) :
    (Rx.seq (.range '0' '5') .digit).matches (twoDigit m) = true := by
  interval_cases m <;> decide

theorem matches_hour24 (h : Nat) (hh : h < 24) :
    (Rx.alt (.seq (.range '0' '1') .digit) (.seq (.chr '2') (.range '0' '3'))).matches
      (twoDigit h) = true := by
  interval_cases h <;> decide

theorem matches_hour12 (h : Nat) (hh : h < 24) :
    (Rx.alt (.seq (.chr '0') (.range '1' '9')) (.seq (.chr '1') (.range '0' '2'))).matches
      (twoDigit (hour12 h)) = true := by
  interval_cases h <;> decide

theorem matches_time24 (h m : Nat) (hh : h < 24) (hm : m < 60) :
    rxTime24.matches (time24 h m) = true := by
  have e : time24 h m = twoDigit h ++ (':' :: twoDigit m) := by simp [time24]
  rw [e]
  exact Rx.matches_seq _ _ _ _ (matches_hour24 h hh)
    (Rx.matches_chr_cons _ _ _ (matches_minute m hm))

theorem matches_time12 (h m : Nat) (hh : h < 24) (hm : m < 60) :
    rxTime12.matches (time12 h m) = true := by
  have e : time12 h m = twoDigit (hour12 h) ++ (':' :: (twoDigit m ++
      (' ' :: (if h < 12 then "AM".toList else "PM".toList)))) := by simp [time12]
  rw [e]
  refine Rx.matches_seq _ _ _ _ (matches_hour12 h hh)
    (Rx.matches_chr_cons _ _ _ (Rx.matches_seq _ _ _ _ (matches_minute m hm)
      (Rx.matches_chr_cons _ _ _ ?_)))
  split <;> decide

theorem matches_alpha3 (name : List Char) (hl : name.length = 3)
    (ha : name.all Char.isAlpha = true) : (Rx.rep 3 .alpha).matches name = true := by
  match name, hl with
  | [a, b, c], _ =>
    simp only [List.all_cons, List.all_nil, Bool.and_true, Bool.and_eq_true] at ha
    have e : [a, b, c] = [a] ++ ([b] ++ ([c] ++ [])) := rfl
    rw [e]
    refine Rx.matches_seq _ _ _ _ ?_ (Rx.matches_seq _ _ _ _ ?_ (Rx.matches_seq _ _ _ _ ?_ rfl))
    · simpa [Rx.alpha, Rx.matches] using ha.1
    · simpa [Rx.alpha, Rx.matches] using ha.2.1
    · simpa [Rx.alpha, Rx.matches] using ha.2.2

theorem matches_date (name : List Char) (mo d y : Nat) (hl : name.length = 3)
    (ha : name.all Char.isAlpha = true) (hmo : mo < 100) (hd : d < 100) (hy : y < 100) :
    rxDate.matches (date name mo d y) = true := by
  have e : date name mo d y = name ++ ((',' :: ' ' :: []) ++ (twoDigit mo ++ ('/' ::
      (twoDigit d ++ ('/' :: twoDigit y))))) := by simp [date]
  rw [e]
  refine Rx.matches_seq _ _ _ _ (matches_alpha3 name hl ha) (Rx.matches_seq _ _ _ _ (by decide)
    (Rx.matches_seq _ _ _ _ (matches_twoDigit mo hmo) (Rx.matches_chr_cons _ _ _
      (Rx.matches_seq _ _ _ _ (matches_twoDigit d hd) (Rx.matches_chr_cons _ _ _
        (matches_twoDigit y hy))))))

end Spec


/-! ## One run of `update_time` at a valid time in the "C" locale -/

theorem nul_not_mem_timeString (b : Bool) (tm : Tm) (hv : tm.valid) :
    NUL ∉ Spec.timeString b tm := by
  obtain ⟨⟨hh0, hh1⟩, ⟨hm0, hm1⟩, -⟩ := hv
  unfold Spec.timeString
  split
  · exact nul_not_mem_time24 _ _ (by omega) (by omega)
  · exact nul_not_mem_time12 _ _ (by omega)

theorem nul_not_mem_dateString (tm : Tm) (hv : tm.valid) : NUL ∉ Spec.dateString tm := by
  obtain ⟨-, -, ⟨hw0, hw1⟩, ⟨ho0, ho1⟩, ⟨hd0, hd1⟩⟩ := hv
  exact nul_not_mem_date _ _ _ _ (cLocale_abday _ (by omega)).2.1 (by omega) (by omega)
    (Nat.mod_lt _ (by decide))

theorem timeString_length (b : Bool) (tm : Tm) :
    (Spec.timeString b tm).length = if b then 5 else 8 := by
  unfold Spec.timeString
  split
  · exact time24_length _ _
  · exact time12_length _ _

theorem dateString_length (tm : Tm) (hv : tm.valid) : (Spec.dateString tm).length = 13 := by
  obtain ⟨-, -, ⟨hw0, hw1⟩, -⟩ := hv
  unfold Spec.dateString
  rw [date_length, (cLocale_abday _ (by omega)).1]

theorem update_time_c (host : Host) (s : AppState) (hwf : s.wf) (hv : host.now.valid)
    (hloc : host.locale = cLocale) :
    update_time host s = .ok (ranState s host.clock_is_24h_style
      (Spec.timeString (decide (host.clock_is_24h_style = 1)) host.now)
      (Spec.dateString host.now)) := by
  have hl := timeString_length (decide (host.clock_is_24h_style = 1)) host.now
  have hd := dateString_length host.now hv
  obtain ⟨hwt, hwd⟩ := hwf
  have e6 : sizeofLit "00:00" = 6 := rfl
  have e9 : sizeofLit "00:00 XX" = 9 := rfl
  have e14 : sizeofLit "XXX, XX/XX/XX" = 14 := rfl
  rw [e9] at hwt
  rw [e14] at hwd
  apply update_time_run
  · by_cases h24 : host.clock_is_24h_style = 1
    · simp only [h24, if_true, decide_True, Spec.timeString]
      rw [expand_time24, time24_out _ hv]
    · simp only [h24, if_false, decide_False, Spec.timeString]
      rw [expand_time12, hloc, time12_out_c _ hv]
      rfl
  · rw [hl, e6, e9]
    by_cases h24 : host.clock_is_24h_style = 1 <;> simp [h24]
  · rw [hl, hwt]
    split <;> omega
  · rw [expand_date, hloc, date_out _ _ hv]
    rfl
  · rw [hd, e14]
  · rw [hd, hwd]

theorem update_time_c_texts (host : Host) (s : AppState) (hwf : s.wf) (hv : host.now.valid)
    (hloc : host.locale = cLocale) :
    ∃ s', update_time host s = .ok s' ∧ s'.wf ∧
      s'.layerText .time
        = some (Spec.timeString (decide (host.clock_is_24h_style = 1)) host.now) ∧
      s'.layerText .date = some (Spec.dateString host.now) ∧
      s'.calls = s.calls ++ [(.time, .tbuffer), (.date, .dbuffer)] := by
  refine ⟨_, update_time_c host s hwf hv hloc, ?_, ?_, ?_, rfl⟩
  · have hl := timeString_length (decide (host.clock_is_24h_style = 1)) host.now
    have hd := dateString_length host.now hv
    have h := hwf
    obtain ⟨hwt, hwd⟩ := h
    have e9 : sizeofLit "00:00 XX" = 9 := rfl
    have e14 : sizeofLit "XXX, XX/XX/XX" = 14 := rfl
    apply ranState_wf _ _ _ _ hwf
    · rw [hl, hwt, e9]
      split <;> omega
    · rw [hd, hwd, e14]
  · exact (ranState_layerText s _ _ _ (nul_not_mem_timeString _ _ hv)
      (nul_not_mem_dateString _ hv)).1
  · exact (ranState_layerText s _ _ _ (nul_not_mem_timeString _ _ hv)
      (nul_not_mem_dateString _ hv)).2


/-! ## The claims -/

/-- C1: at a valid time, in 12-hour style, the time text `update_time` sets is the
two-digit hour of the 12-hour clock (12 when the hour is 0 or 12), a colon, the
two-digit minute, a space, and AM before noon or PM from noon on; hours 0 and 12 both
give `12`, and 00:00 gives `12:00 AM`. -/
theorem update_time_text_12h (host : Host) (s : AppState) (hwf : s.wf)
    (hv : host.now.valid) (hloc : host.locale = cLocale)
    (h12 : host.clock_is_24h_style ≠ 1) :
    ∃ s', update_time host s = .ok s' ∧
      s'.layerText .time
        = some (Spec.twoDigit (if host.now.tm_hour.toNat % 12 = 0 then 12
                  else host.now.tm_hour.toNat % 12) ++ ":".toList
                ++ Spec.twoDigit host.now.tm_min.toNat ++ " ".toList
                ++ (if host.now.tm_hour.toNat < 12 then "AM".toList else "PM".toList)) ∧
      (host.now.tm_hour = 0 ∨ host.now.tm_hour = 12 →
        ∃ rest, s'.layerText .time = some ('1' :: '2' :: rest)) ∧
      (host.now.tm_hour = 0 ∧ host.now.tm_min = 0 →
        s'.layerText .time = some "12:00 AM".toList) := by
  obtain ⟨s', hrun, -, ht, -, -⟩ := update_time_c_texts host s hwf hv hloc
  rw [decide_eq_false h12] at ht
  change _ = some (Spec.time12 _ _) at ht
  refine ⟨s', hrun, ht, ?_, ?_⟩
  · intro h
    rw [ht]
    rcases h with h | h <;> rw [h] <;> exact ⟨_, rfl⟩
  · rintro ⟨h0, m0⟩
    rw [ht, h0, m0]
    rfl

theorem update_time_text_12h_witness :
    initialState.wf ∧ midnightWed.valid ∧
    ∃ s', update_time ⟨midnightWed, 0, cLocale⟩ initialState = .ok s' ∧
      s'.layerText .time = some "12:00 AM".toList :=
  ⟨by decide, by decide,
    (update_time_text_12h ⟨midnightWed, 0, cLocale⟩ initialState (by decide) (by decide) rfl
      (by decide)).elim fun s' h => ⟨s', h.1, h.2.2.2 ⟨rfl, rfl⟩⟩⟩

/-- C2: at a valid time, in 24-hour style, the time text `update_time` sets is the
two-digit hour, a colon and the two-digit minute: five characters matching
`^([01]\d|2[0-3]):[0-5]\d$`; 13:05 gives `13:05`. -/
theorem update_time_text_24h (host : Host) (s : AppState) (hwf : s.wf)
    (hv : host.now.valid) (hloc : host.locale = cLocale)
    (h24 : host.clock_is_24h_style = 1) :
    ∃ s' t, update_time host s = .ok s' ∧ s'.layerText .time = some t ∧
      t = Spec.twoDigit host.now.tm_hour.toNat ++ ":".toList
            ++ Spec.twoDigit host.now.tm_min.toNat ∧
      t.length = 5 ∧ Spec.rxTime24.matches t = true ∧
      (host.now.tm_hour = 13 ∧ host.now.tm_min = 5 → t = "13:05".toList) := by
  obtain ⟨s', hrun, -, ht, -, -⟩ := update_time_c_texts host s hwf hv hloc
  rw [decide_eq_true h24] at ht
  change _ = some (Spec.time24 _ _) at ht
  obtain ⟨⟨hh0, hh1⟩, ⟨hm0, hm1⟩, -⟩ := hv
  refine ⟨s', _, hrun, ht, rfl, rfl, Spec.matches_time24 _ _ (by omega) (by omega), ?_⟩
  rintro ⟨h0, m0⟩
  rw [h0, m0]
  rfl

theorem update_time_text_24h_witness :
    initialState.wf ∧ afternoon.valid ∧
    ∃ s' t, update_time ⟨afternoon, 1, cLocale⟩ initialState = .ok s' ∧
      s'.layerText .time = some t ∧ t = "13:05".toList :=
  ⟨by decide, by decide,
    (update_time_text_24h ⟨afternoon, 1, cLocale⟩ initialState (by decide) (by decide) rfl
      rfl).elim fun s' h => h.elim fun t h => ⟨s', t, h.1, h.2.1, h.2.2.2.2.2 ⟨rfl, rfl⟩⟩⟩

/-- C3: at a valid time the date text `update_time` sets is the three-letter weekday
name, a comma, a space, and month, day and year of the century as two digits each with
slashes between; it matches `^[A-Za-z]{3}, \d{2}/\d{2}/\d{2}$` and is the same for every
value of the style flag. -/
theorem update_time_date_text (host : Host) (s : AppState) (hwf : s.wf)
    (hv : host.now.valid) (hloc : host.locale = cLocale) :
    ∃ s' d, update_time host s = .ok s' ∧ s'.layerText .date = some d ∧
      d = cLocale.abday host.now.tm_wday.toNat ++ ", ".toList
            ++ Spec.twoDigit (host.now.tm_mon + 1).toNat ++ "/".toList
            ++ Spec.twoDigit host.now.tm_mday.toNat ++ "/".toList
            ++ Spec.twoDigit ((host.now.tm_year + 1900).natAbs % 100) ∧
      (cLocale.abday host.now.tm_wday.toNat).length = 3 ∧
      Spec.rxDate.matches d = true ∧
      ∀ style : Int, ∃ s2, update_time { host with clock_is_24h_style := style } s = .ok s2 ∧
        s2.layerText .date = some d := by
  obtain ⟨s', hrun, -, -, hd, -⟩ := update_time_c_texts host s hwf hv hloc
  have hv' := hv
  obtain ⟨-, -, ⟨hw0, hw1⟩, ⟨ho0, ho1⟩, ⟨hd0, hd1⟩⟩ := hv'
  have hab := cLocale_abday host.now.tm_wday.toNat (by omega)
  refine ⟨s', _, hrun, hd, rfl, hab.1, ?_, ?_⟩
  · exact Spec.matches_date _ _ _ _ hab.1 hab.2.2 (by omega) (by omega)
      (Nat.mod_lt _ (by decide))
  · intro style
    obtain ⟨s2, hrun', -, -, hd', -⟩ :=
      update_time_c_texts { host with clock_is_24h_style := style } s hwf hv hloc
    exact ⟨s2, hrun', hd'⟩

theorem update_time_date_text_witness :
    initialState.wf ∧ newYearsEve.valid ∧
    ∃ s' d, update_time ⟨newYearsEve, 1, cLocale⟩ initialState = .ok s' ∧
      s'.layerText .date = some d ∧ d = "Tue, 12/31/24".toList ∧
      Spec.rxDate.matches d = true :=
  ⟨by decide, by decide,
    (update_time_date_text ⟨newYearsEve, 1, cLocale⟩ initialState (by decide) (by decide)
      rfl).elim fun s' h => h.elim fun d h => ⟨s', d, h.1, h.2.1, h.2.2.1, h.2.2.2.2.1⟩⟩


/-- C4 (as stated, refuted): at 00:00 in 12-hour style the time text is `12:00 AM`,
which with its terminator takes 9 characters, not at most 8. -/
theorem time_text_needs_nine :
    ∃ s' t, update_time ⟨midnightWed, 0, cLocale⟩ initialState = .ok s' ∧
      s'.layerText .time = some t ∧ t = "12:00 AM".toList ∧ ¬ (t.length + 1 ≤ 8) :=
  ⟨_, _, rfl, rfl, rfl, by decide⟩

/-- C4 (amended): at a valid time, in either style, the time text with its terminator
takes at most 9 characters (6 in 24-hour style, 9 in 12-hour style) and the date text
with its terminator takes at most 14 (exactly 14). -/
theorem update_time_text_sizes (host : Host) (s : AppState) (hwf : s.wf)
    (hv : host.now.valid) (hloc : host.locale = cLocale) :
    ∃ s' t d, update_time host s = .ok s' ∧ s'.layerText .time = some t ∧
      s'.layerText .date = some d ∧
      t.length + 1 ≤ 9 ∧ (t.length + 1 = if host.clock_is_24h_style = 1 then 6 else 9) ∧
      d.length + 1 ≤ 14 ∧ d.length + 1 = 14 := by
  obtain ⟨s', hrun, -, ht, hd, -⟩ := update_time_c_texts host s hwf hv hloc
  have hl := timeString_length (decide (host.clock_is_24h_style = 1)) host.now
  have hdl := dateString_length host.now hv
  refine ⟨s', _, _, hrun, ht, hd, ?_, ?_, ?_, ?_⟩
  · rw [hl]; split <;> omega
  · rw [hl]; by_cases h : host.clock_is_24h_style = 1 <;> simp [h]
  · rw [hdl]
  · rw [hdl]

theorem update_time_text_sizes_witness :
    initialState.wf ∧ midnightWed.valid ∧
    ∃ s' t d, update_time ⟨midnightWed, 0, cLocale⟩ initialState = .ok s' ∧
      s'.layerText .time = some t ∧ s'.layerText .date = some d ∧
      t.length + 1 ≤ 9 ∧ d.length + 1 ≤ 14 :=
  ⟨by decide, by decide,
    (update_time_text_sizes ⟨midnightWed, 0, cLocale⟩ initialState (by decide) (by decide)
      rfl).elim fun s' h => h.elim fun t h => h.elim fun d h =>
        ⟨s', t, d, h.1, h.2.1, h.2.2.1, h.2.2.2.1, h.2.2.2.2.2.1⟩⟩

/-- C5: at a valid time, in 12-hour style, the time text matches
`^(0[1-9]|1[0-2]):[0-5]\d (AM|PM)$`: its hour field is the two-digit form of a number
from 1 to 12, so never `00`, and it ends in a space and AM or PM. -/
theorem update_time_text_12h_shape (host : Host) (s : AppState) (hwf : s.wf)
    (hv : host.now.valid) (hloc : host.locale = cLocale)
    (h12 : host.clock_is_24h_style ≠ 1) :
    ∃ s' t, update_time host s = .ok s' ∧ s'.layerText .time = some t ∧
      Spec.rxTime12.matches t = true ∧
      (∃ k, 1 ≤ k ∧ k ≤ 12 ∧ t.take 2 = Spec.twoDigit k) ∧
      t.take 2 ≠ "00".toList ∧
      (t.drop 5 = " AM".toList ∨ t.drop 5 = " PM".toList) := by
  obtain ⟨s', hrun, -, ht, -, -⟩ := update_time_c_texts host s hwf hv hloc
  rw [decide_eq_false h12] at ht
  change _ = some (Spec.time12 _ _) at ht
  obtain ⟨⟨hh0, hh1⟩, ⟨hm0, hm1⟩, -⟩ := hv
  have hk : 1 ≤ Spec.hour12 host.now.tm_hour.toNat ∧ Spec.hour12 host.now.tm_hour.toNat ≤ 12 := by
    unfold Spec.hour12
    split <;> omega
  have htake : (Spec.time12 host.now.tm_hour.toNat host.now.tm_min.toNat).take 2
      = Spec.twoDigit (Spec.hour12 host.now.tm_hour.toNat) := by
    simp [Spec.time12, Spec.twoDigit]
  refine ⟨s', _, hrun, ht, Spec.matches_time12 _ _ (by omega) (by omega),
    ⟨_, hk.1, hk.2, htake⟩, ?_, ?_⟩
  · rw [htake]
    generalize Spec.hour12 host.now.tm_hour.toNat = k at hk
    obtain ⟨hk1, hk2⟩ := hk
    interval_cases k <;> decide
  · unfold Spec.time12
    by_cases h : host.now.tm_hour.toNat < 12
    · left; simp [h, Spec.twoDigit]
    · right; simp [h, Spec.twoDigit]

theorem update_time_text_12h_shape_witness :
    initialState.wf ∧ newYearsEve.valid ∧
    ∃ s' t, update_time ⟨newYearsEve, 0, cLocale⟩ initialState = .ok s' ∧
      s'.layerText .time = some t ∧ Spec.rxTime12.matches t = true :=
  ⟨by decide, by decide,
    (update_time_text_12h_shape ⟨newYearsEve, 0, cLocale⟩ initialState (by decide) (by decide)
      rfl (by decide)).elim fun s' h => h.elim fun t h => ⟨s', t, h.1, h.2.1, h.2.2.1⟩⟩


theorem expand_lengths (loc : Locale) (tm : Tm) (hv : tm.valid)
    (hab : ∀ w, w < 7 → (loc.abday w).length = 3) (ham : loc.am.length = 2)
    (hpm : loc.pm.length = 2) :
    ∃ o24 o12 od, expand loc tm "%H:%M".toList = some o24 ∧ o24.length = 5 ∧
      expand loc tm "%I:%M %p".toList = some o12 ∧ o12.length = 8 ∧
      expand loc tm "%a, %D".toList = some od ∧ od.length = 13 := by
  refine ⟨_, _, _, expand_time24 loc tm, ?_, expand_time12 loc tm, ?_, expand_date loc tm, ?_⟩
  · rw [time24_out tm hv]
    rfl
  · rw [time12_out loc tm hv]
    split <;> simp [Spec.twoDigit, ham, hpm]
  · rw [date_out loc tm hv, date_length, hab _ (by have := hv.2.2.1; omega)]

/-- C6: the two texts `update_time` sets depend only on the style flag and on the hour,
minute, weekday, month, day and year of the clock reading: two runs that agree on those
set the same time text and the same date text, whatever the seconds and whatever the two
arrays held before; in particular a second run on the same reading sets the same texts. -/
theorem update_time_texts_determined (host1 host2 : Host) (s1 s2 : AppState)
    (hwf1 : s1.wf) (hwf2 : s2.wf) (hv : host1.now.valid)
    (hloc1 : host1.locale = cLocale) (hloc2 : host2.locale = cLocale)
    (hstyle : host1.clock_is_24h_style = host2.clock_is_24h_style)
    (hhour : host1.now.tm_hour = host2.now.tm_hour)
    (hmin : host1.now.tm_min = host2.now.tm_min)
    (hwday : host1.now.tm_wday = host2.now.tm_wday)
    (hmon : host1.now.tm_mon = host2.now.tm_mon)
    (hmday : host1.now.tm_mday = host2.now.tm_mday)
    (hyear : host1.now.tm_year = host2.now.tm_year) :
    ∃ s1' s2' t d, update_time host1 s1 = .ok s1' ∧ update_time host2 s2 = .ok s2' ∧
      s1'.layerText .time = some t ∧ s2'.layerText .time = some t ∧
      s1'.layerText .date = some d ∧ s2'.layerText .date = some d ∧
      ∃ s3, update_time host1 s1' = .ok s3 ∧
        s3.layerText .time = some t ∧ s3.layerText .date = some d := by
  have hv2 : host2.now.valid := by
    unfold Tm.valid at hv ⊢
    rw [← hhour, ← hmin, ← hwday, ← hmon, ← hmday]
    exact hv
  obtain ⟨s1', hrun1, hwf1', ht1, hd1, -⟩ := update_time_c_texts host1 s1 hwf1 hv hloc1
  obtain ⟨s2', hrun2, -, ht2, hd2, -⟩ := update_time_c_texts host2 s2 hwf2 hv2 hloc2
  obtain ⟨s3, hrun3, -, ht3, hd3, -⟩ := update_time_c_texts host1 s1' hwf1' hv hloc1
  refine ⟨s1', s2', _, _, hrun1, hrun2, ht1, ?_, hd1, ?_, s3, hrun3, ht3, hd3⟩
  · rw [ht2, hstyle]
    simp only [Spec.timeString, hhour, hmin]
  · rw [hd2]
    simp only [Spec.dateString, hwday, hmon, hmday, hyear]

theorem update_time_texts_determined_witness :
    initialState.wf ∧ afterTwelveHour.wf ∧ newYearsEve.valid ∧
    ∃ s1' s2', update_time ⟨newYearsEve, 1, cLocale⟩ initialState = .ok s1' ∧
      update_time ⟨{ newYearsEve with tm_sec := 42 }, 1, cLocale⟩ afterTwelveHour = .ok s2' ∧
      s1'.layerText .time = s2'.layerText .time ∧ s1'.layerText .date = s2'.layerText .date :=
  ⟨by decide, by decide, by decide,
    (update_time_texts_determined ⟨newYearsEve, 1, cLocale⟩
      ⟨{ newYearsEve with tm_sec := 42 }, 1, cLocale⟩ initialState afterTwelveHour
      (by decide) (by decide) (by decide) rfl rfl rfl rfl rfl rfl rfl rfl rfl).elim
      fun s1' h => h.elim fun s2' h => h.elim fun _ h => h.elim fun _ h =>
        ⟨s1', s2', h.1, h.2.1, h.2.2.1.trans h.2.2.2.1.symm,
          h.2.2.2.2.1.trans h.2.2.2.2.2.1.symm⟩⟩

/-- C7: at 23:59:00 on Tuesday 31 December 2024, in 12-hour style, `update_time` sets the
time text `11:59 PM` and the date text `Tue, 12/31/24`. -/
theorem update_time_new_years_eve (s : AppState) (style : Int) (hwf : s.wf)
    (h12 : style ≠ 1) :
    ∃ s', update_time ⟨newYearsEve, style, cLocale⟩ s = .ok s' ∧
      s'.layerText .time = some "11:59 PM".toList ∧
      s'.layerText .date = some "Tue, 12/31/24".toList := by
  obtain ⟨s', hrun, -, ht, hd, -⟩ :=
    update_time_c_texts ⟨newYearsEve, style, cLocale⟩ s hwf
      (show newYearsEve.valid by decide) rfl
  rw [decide_eq_false h12] at ht
  have et : Spec.timeString false newYearsEve = "11:59 PM".toList := by decide
  have ed : Spec.dateString newYearsEve = "Tue, 12/31/24".toList := by decide
  exact ⟨s', hrun, ht.trans (congrArg some et), hd.trans (congrArg some ed)⟩

theorem update_time_new_years_eve_witness :
    initialState.wf ∧
    ∃ s', update_time ⟨newYearsEve, 0, cLocale⟩ initialState = .ok s' ∧
      s'.layerText .time = some "11:59 PM".toList ∧
      s'.layerText .date = some "Tue, 12/31/24".toList :=
  ⟨by decide, update_time_new_years_eve initialState 0 (by decide) (by decide)⟩

/-- C8: every value of the style flag other than `true` (1) selects the 12-hour format:
at a valid time `update_time` succeeds, sets the time layer's text, that text is the
12-hour text, and the run is the same as with the flag 0. -/
theorem update_time_style_fallback (host : Host) (s : AppState) (hwf : s.wf)
    (hv : host.now.valid) (hloc : host.locale = cLocale)
    (hstyle : host.clock_is_24h_style ≠ 1) :
    ∃ s', update_time host s = .ok s' ∧ s'.s_time_layer = some .tbuffer ∧
      s'.layerText .time
        = some (Spec.time12 host.now.tm_hour.toNat host.now.tm_min.toNat) ∧
      update_time { host with clock_is_24h_style := 0 } s = .ok s' := by
  have h := update_time_c host s hwf hv hloc
  have h0 := update_time_c { host with clock_is_24h_style := 0 } s hwf hv hloc
  obtain ⟨s', hrun, -, ht, -, -⟩ := update_time_c_texts host s hwf hv hloc
  rw [decide_eq_false hstyle] at ht h
  have e : s' = ranState s host.clock_is_24h_style (Spec.timeString false host.now)
      (Spec.dateString host.now) := by
    rw [hrun] at h
    injection h
  have e0 : ranState s host.clock_is_24h_style (Spec.timeString false host.now)
      (Spec.dateString host.now)
      = ranState s 0 (Spec.timeString false host.now) (Spec.dateString host.now) := by
    simp [ranState, hstyle]
  refine ⟨s', hrun, ?_, ht, ?_⟩
  · rw [e]; rfl
  · rw [e, e0]; exact h0

theorem update_time_style_fallback_witness :
    initialState.wf ∧ midnightWed.valid ∧ (2 : Int) ≠ 1 ∧
    ∃ s', update_time ⟨midnightWed, 2, cLocale⟩ initialState = .ok s' ∧
      s'.layerText .time = some "12:00 AM".toList :=
  ⟨by decide, by decide, by decide,
    (update_time_style_fallback ⟨midnightWed, 2, cLocale⟩ initialState (by decide) (by decide)
      rfl (by decide)).elim fun s' h => ⟨s', h.1, h.2.2.1⟩⟩

/-- C9: after `tick_handler` the time layer shows the time text and the date layer the
date text, both formatted from the clock reading and style of that call; the handler's
two arguments do not matter; and exactly two calls of `text_layer_set_text` are added,
one for each layer. -/
theorem tick_handler_sets_texts (tick_time : Option Tm) (units_changed : Nat) (host : Host)
    (s : AppState) (hwf : s.wf) (hv : host.now.valid) (hloc : host.locale = cLocale) :
    ∃ s', tick_handler tick_time units_changed host s = .ok s' ∧
      s'.layerText .time
        = some (Spec.timeString (decide (host.clock_is_24h_style = 1)) host.now) ∧
      s'.layerText .date = some (Spec.dateString host.now) ∧
      s'.calls = s.calls ++ [(.time, .tbuffer), (.date, .dbuffer)] ∧
      ∀ (tick_time' : Option Tm) (units_changed' : Nat),
        tick_handler tick_time' units_changed' host s = .ok s' := by
  obtain ⟨s', hrun, -, ht, hd, hc⟩ := update_time_c_texts host s hwf hv hloc
  exact ⟨s', hrun, ht, hd, hc, fun _ _ => hrun⟩

theorem tick_handler_sets_texts_witness :
    initialState.wf ∧ afternoon.valid ∧
    ∃ s', tick_handler (some midnightWed) 2 ⟨afternoon, 1, cLocale⟩ initialState = .ok s' ∧
      s'.layerText .time = some "13:05".toList ∧
      s'.layerText .date = some "Mon, 01/06/25".toList ∧
      s'.calls = [(.time, .tbuffer), (.date, .dbuffer)] :=
  ⟨by decide, by decide,
    (tick_handler_sets_texts (some midnightWed) 2 ⟨afternoon, 1, cLocale⟩ initialState
      (by decide) (by decide) rfl).elim fun s' h => ⟨s', h.1, h.2.1, h.2.2.1, h.2.2.2.1⟩⟩

/-- C10: at a valid time, with three-letter weekday names and two-letter AM/PM markers,
`update_time` succeeds and makes exactly two `strftime` calls. The first is on the time
array of 9 characters with `maxsize` 6 (24-hour style) or 9 (12-hour style), the second
on the date array of 14 characters with `maxsize` 14. In each call `maxsize` is no
larger than the array, and the formatted text (the expansion of the format passed, whose
length is the value returned) with its terminator fits in `maxsize`; so no call writes
outside its array and none truncates or fails. -/
theorem strftime_calls_fit (host : Host) (s : AppState) (hwf : s.wf) (hv : host.now.valid)
    (hab : ∀ w, w < 7 → (host.locale.abday w).length = 3)
    (ham : host.locale.am.length = 2) (hpm : host.locale.pm.length = 2) :
    ∃ s' tcall dcall tOut dOut, update_time host s = .ok s' ∧
      s'.strftime_calls = s.strftime_calls ++ [tcall, dcall] ∧
      (tcall.s = .tbuffer ∧ tcall.capacity = s.tbuffer.length ∧ tcall.capacity = 9 ∧
        tcall.maxsize = (if host.clock_is_24h_style = 1 then 6 else 9) ∧
        tcall.maxsize ≤ tcall.capacity ∧
        expand host.locale host.now tcall.format.toList = some tOut ∧
        tcall.returned = tOut.length ∧ tOut.length + 1 ≤ tcall.maxsize ∧
        s'.tbuffer = tOut ++ NUL :: s.tbuffer.drop (tOut.length + 1) ∧
        s'.tbuffer.length = tcall.capacity) ∧
      (dcall.s = .dbuffer ∧ dcall.capacity = s.dbuffer.length ∧ dcall.capacity = 14 ∧
        dcall.maxsize = 14 ∧ dcall.maxsize ≤ dcall.capacity ∧
        expand host.locale host.now dcall.format.toList = some dOut ∧
        dcall.returned = dOut.length ∧ dOut.length + 1 ≤ dcall.maxsize ∧
        s'.dbuffer = dOut ++ NUL :: s.dbuffer.drop (dOut.length + 1) ∧
        s'.dbuffer.length = dcall.capacity) := by
  obtain ⟨o24, o12, od, e24, l24, e12, l12, ed, ld⟩ :=
    expand_lengths host.locale host.now hv hab ham hpm
  have h := hwf
  obtain ⟨hwt, hwd⟩ := h
  have e6 : sizeofLit "00:00" = 6 := rfl
  have e9 : sizeofLit "00:00 XX" = 9 := rfl
  have e14 : sizeofLit "XXX, XX/XX/XX" = 14 := rfl
  rw [e9] at hwt
  rw [e14] at hwd
  by_cases h24 : host.clock_is_24h_style = 1
  · have hrun := update_time_run host s o24 od (by simpa [h24] using e24)
      (by simp [h24, l24, e6]) (by rw [l24, hwt]; omega) ed (by rw [ld, e14]) (by rw [ld, hwd])
    have hw := ranState_wf s host.clock_is_24h_style o24 od hwf (by rw [l24, hwt]; omega)
      (by rw [ld, hwd])
    refine ⟨_, _, _, o24, od, hrun, rfl, ⟨rfl, rfl, hwt, ?_, ?_, ?_, rfl, ?_, rfl, ?_⟩,
      ⟨rfl, rfl, hwd, e14, ?_, ed, rfl, ?_, rfl, ?_⟩⟩
    · simp [h24, e6]
    · simp [h24, e6, hwt]
    · simpa [h24] using e24
    · simp [h24, e6, l24]
    · exact hw.1.trans (e9.trans hwt.symm)
    · simp [e14, hwd]
    · simp [e14, ld]
    · exact hw.2.trans (e14.trans hwd.symm)
  · have hrun := update_time_run host s o12 od (by simpa [h24] using e12)
      (by simp [h24, l12, e9]) (by rw [l12, hwt]) ed (by rw [ld, e14]) (by rw [ld, hwd])
    have hw := ranState_wf s host.clock_is_24h_style o12 od hwf (by rw [l12, hwt])
      (by rw [ld, hwd])
    refine ⟨_, _, _, o12, od, hrun, rfl, ⟨rfl, rfl, hwt, ?_, ?_, ?_, rfl, ?_, rfl, ?_⟩,
      ⟨rfl, rfl, hwd, e14, ?_, ed, rfl, ?_, rfl, ?_⟩⟩
    · simp [h24, e9]
    · simp [h24, e9, hwt]
    · simpa [h24] using e12
    · simp [h24, e9, l12]
    · exact hw.1.trans (e9.trans hwt.symm)
    · simp [e14, hwd]
    · simp [e14, ld]
    · exact hw.2.trans (e14.trans hwd.symm)

theorem strftime_calls_fit_witness :
    initialState.wf ∧ newYearsEve.valid ∧
    ∃ s' tcall dcall, update_time ⟨newYearsEve, 0, cLocale⟩ initialState = .ok s' ∧
      s'.strftime_calls = [tcall, dcall] ∧
      tcall.maxsize = 9 ∧ tcall.capacity = 9 ∧ tcall.returned + 1 ≤ tcall.maxsize ∧
      dcall.maxsize = 14 ∧ dcall.capacity = 14 ∧ dcall.returned + 1 ≤ dcall.maxsize :=
  ⟨by decide, by decide,
    (strftime_calls_fit ⟨newYearsEve, 0, cLocale⟩ initialState (by decide) (by decide)
      (fun w hw => (cLocale_abday w hw).1) rfl rfl).elim fun s' h => h.elim fun tcall h =>
        h.elim fun dcall h => h.elim fun _ h => h.elim fun _ h =>
          ⟨s', tcall, dcall, h.1, h.2.1, h.2.2.1.2.2.2.1, h.2.2.1.2.2.1,
            h.2.2.1.2.2.2.2.2.2.1 ▸ h.2.2.1.2.2.2.2.2.2.2.1,
            h.2.2.2.2.2.2.1, h.2.2.2.2.2.1,
            h.2.2.2.2.2.2.2.2.2.1 ▸ h.2.2.2.2.2.2.2.2.2.2.1⟩⟩

end Fredsistance
